import Mathlib

/-
  Verification of the DiffHedge Transaction Assembly & Signing Coordinator
  (src/frontend/src/App.vue, second front-end variant, the one containing the
  full signing logic: lines 431-1073 of the concatenated source file).

  The embedding follows the source line by line:
  * the Vue reactive objects `currentContract`, the contract form and the
    wallet session become plain structures;
  * every network / wallet / bitcoinjs-lib library call whose result the code
    consumes becomes a field of an explicit environment structure (`Env`,
    `FlowEnv`), so that one invocation of an operation is a pure function of
    the environment and the current state;
  * JavaScript `undefined` reads are modelled with `Option` (in particular
    `currentContract.amount`: the reactive object declared at source lines
    465-471 has no `amount` key and no statement ever assigns one, so every
    read of it yields `undefined`, modelled as `none`);
  * thrown exceptions become `Except` errors; the catch blocks of the source
    become the error branches of the wrappers, which append the same log
    entries the source appends (the `log` helper prepends a wall-clock
    timestamp which is not modelled; only the message text is kept).
-/

namespace DiffHedge

set_option maxHeartbeats 1000000
set_option maxRecDepth 16384

/-- The `currentContract` reactive object (source lines 465-471) plus the
`amount` pseudo-field: the source object declares only `id`, `address`,
`status`, `tx_hex` and `logs`, so JavaScript reads of `currentContract.amount`
(source line 731) always yield `undefined`; we model that read as an
`Option Int` which is `none` in every state the program can produce. -/
structure ContractState where
  id : Option Int
  address : String
  status : String
  tx_hex : String
  amount : Option Int
  logs : List String
deriving DecidableEq

/-- The initial `currentContract` value from source lines 465-471
(`id: null, address: '', status: '', tx_hex: '', logs: []`; no `amount`). -/
def initialContract : ContractState :=
  { id := none, address := "", status := "", tx_hex := "", amount := none, logs := [] }

/-- JavaScript truthiness of the contract id: `null` and `0` are falsy. -/
def truthyId : Option Int → Bool
  | none => false
  | some n => n != 0

/-- `log(msg)`: `currentContract.logs.unshift(...)` (source lines 480-483),
newest entry first. -/
def pushLog (c : ContractState) (m : String) : ContractState :=
  { c with logs := m :: c.logs }

/-- Append a batch of already-ordered (newest first) log entries. -/
def addLogs (c : ContractState) (ls : List String) : ContractState :=
  { c with logs := ls ++ c.logs }

/-- One input of a decoded bitcoin transaction (`tx.ins[i]` of
`bitcoin.Transaction.fromHex`): previous-output hash and index, sequence,
and the witness stack (a list of byte strings, bytes as `Nat`). -/
structure TxInput where
  hash : List Nat
  index : Nat
  sequence : Nat
  witness : List (List Nat)
deriving DecidableEq

/-- One output of a decoded bitcoin transaction (`tx.outs[i]`). -/
structure TxOutput where
  script : List Nat
  value : Int
deriving DecidableEq

/-- A decoded bitcoin transaction as bitcoinjs-lib exposes it. -/
structure Tx where
  version : Int
  ins : List TxInput
  outs : List TxOutput
  locktime : Nat
deriving DecidableEq

/-- A taproot leaf attachment `{leafVersion, script, controlBlock}`. -/
structure TapLeaf where
  leafVersion : Nat
  script : List Nat
  controlBlock : List Nat
deriving DecidableEq

/-- A taproot script-path signature record `{pubkey, signature, leafHash}`. -/
structure TapSig where
  pubkey : List Nat
  signature : List Nat
  leafHash : List Nat
deriving DecidableEq

/-- An output destination of a PSBT under construction: the single-contract
path supplies an address string (`psbt.addOutput({address, ...})`, source line
757), the batch path supplies the raw script (`psbt.addOutput({script, ...})`,
source lines 877-880). -/
inductive PsbtDest where
  | byAddress (a : String)
  | byScript (s : List Nat)
deriving DecidableEq

/-- One input of a PSBT under construction, carrying the fields the two
`psbt.addInput` calls of the source supply. -/
structure PsbtIn where
  hash : List Nat
  index : Nat
  witnessUtxoScript : List Nat
  witnessUtxoValue : Int
  tapLeafScript : List TapLeaf
  tapScriptSig : List TapSig
  sighashDefaultSet : Bool
deriving DecidableEq

/-- One output of a PSBT under construction. -/
structure PsbtOut where
  dest : PsbtDest
  value : Int
deriving DecidableEq

/-- A PSBT document under construction. -/
structure Psbt where
  inputs : List PsbtIn
  outputs : List PsbtOut
deriving DecidableEq

/-- One input of the signed PSBT returned by the signing agent, as the source
reads it back: whether taproot leaf metadata is present, and its
`tapScriptSig` list (an absent field and an empty list are treated alike by
the source's `!tapScriptSig || tapScriptSig.length === 0` check, so both are
modelled as `[]`). -/
structure SignedIn where
  hasLeaf : Bool
  tapScriptSig : List TapSig
deriving DecidableEq

def defaultSignedIn : SignedIn := { hasLeaf := false, tapScriptSig := [] }

/-- The signed PSBT document returned by `signPsbt` (hex round-trip through
`bitcoin.Psbt.fromHex` is abstracted away: the agent returns the document). -/
structure SignedPsbt where
  inputs : List SignedIn
deriving DecidableEq

/-- The `window.unisat` provider surface used by the signing paths. -/
structure Unisat where
  signPsbt : Psbt → Except String SignedPsbt
  pushTx : Tx → Except String String

/-- One record of the backend's `psbt_inputs` list in the `claim_all`
response (source lines 846-872). -/
structure PsbtInputMeta where
  index : Nat
  scriptPubKey : List Nat
  value : Int
  tapLeafScript : TapLeaf
  oracleSig : TapSig
deriving DecidableEq

/-- The backend's `claim_all` response body. -/
structure ClaimAllResp where
  status : String
  message : String
  unsigned_tx_hex : String
  psbt_inputs : List PsbtInputMeta
deriving DecidableEq

/-- The environment one signing operation runs against: the bitcoinjs-lib
codec functions the source calls, the backend `claim_all` response, and the
`window.unisat` provider (`none` when the UniSat extension is not installed,
e.g. in a session where only the OKX wallet is present). -/
structure Env where
  parseTx : String → Option Tx
  decodeTestnetAddr : String → Option (List Nat)
  encodeTestnetScript : List Nat → Option String
  extractTx : SignedPsbt → Tx
  claimResp : Except String ClaimAllResp
  unisat : Option Unisat

/-- Errors of the single-contract signing path `signAndBroadcast`
(source lines 711-802).  Each constructor corresponds to one failure site of
the source; the three `TypeError`-style library failures (unparsable hex,
missing first input, witness too short for leaf/control extraction, signed
PSBT without a first input) are collapsed into `formatError`. -/
inductive SignErr where
  | parseError
  | formatError
  | amountNaN
  | invalidAddress (a : String)
  | outputAddressError
  | walletMissing
  | agentError (m : String)
  | noSignatureReturned
  | noPlaceholder
  | broadcastFailed (m : String)
deriving DecidableEq

/-- Whether the error arose from the broadcast call itself (after `pushTx`
was already invoked). -/
def SignErr.isBroadcast : SignErr → Bool
  | .broadcastFailed _ => true
  | _ => false

/-- The `e.message` text logged by the catch block for each failure site.
Messages thrown by the source are reproduced verbatim; messages raised inside
bitcoinjs-lib / the JS runtime are represented by fixed stand-ins. -/
def signFailMsg : SignErr → String
  | .parseError => "Transaction parse error"
  | .formatError => "TypeError"
  | .amountNaN => "Cannot convert NaN to a BigInt"
  | .invalidAddress a => "Invalid address for Testnet: " ++ a
  | .outputAddressError => "OutputScript decode error"
  | .walletMissing => "window.unisat is undefined"
  | .agentError m => m
  | .noSignatureReturned => "No signature returned from wallet"
  | .noPlaceholder => "Could not find placeholder for signature in witness stack"
  | .broadcastFailed m => m

/-- Index of the first zero-length element of a witness-stack prefix:
`some k` with `k` the first empty slot, `none` when every slot is filled. -/
def firstEmptyIdx : List (List Nat) → Option Nat
  | [] => none
  | x :: xs => if x = [] then some 0 else (firstEmptyIdx xs).map (fun i => i + 1)

/-- The placeholder scan of source lines 776-783: loop `i` from `0` to
`witness.length - 3` and take the first `i` with `witness[i].length === 0`
(i.e. the first empty element among all but the final two, which are the
leaf script and the control block). -/
def findPlaceholderSlot (w : List (List Nat)) : Option Nat :=
  firstEmptyIdx (w.take (w.length - 2))

/-- The in-place witness mutation of source lines 779 and 790: set witness
slot `k` of input 0 to the user signature and reserialize the transaction. -/
def applyUserSig (tx : Tx) (i0 : TxInput) (k : Nat) (sig : List Nat) : Tx :=
  { tx with ins := tx.ins.set 0 { i0 with witness := i0.witness.set k sig } }

/-- The result of one `signAndBroadcast` invocation: the post-state of
`currentContract`, the failure (if any), whether `pushTx` was invoked, and
the returned txid on success. -/
structure SignOutcome where
  contract : ContractState
  err : Option SignErr
  broadcastAttempted : Bool
  txid : Option String
deriving DecidableEq

/-- The try-block of `signAndBroadcast` (source lines 715-794), step by step
in source order: decode the raw transaction, read input 0's witness, take the
last two witness elements as leaf script and control block (a negative JS
index reads `undefined`, hence the length guards), compute
`BigInt(currentContract.amount * 2)` (throws when `amount` is `undefined`),
decode the destination address under testnet, build the one-input PSBT,
request `window.unisat.signPsbt`, extract the returned `tapScriptSig`,
find the witness placeholder, insert the signature and `pushTx` the result. -/
def signAndBroadcastCore (env : Env) (c : ContractState) : Except SignErr (Tx × String) :=
  match env.parseTx c.tx_hex with
  | none => .error .parseError
  | some tx =>
    match tx.ins[0]? with
    | none => .error .formatError
    | some i0 =>
      match c.amount with
      | none => .error .amountNaN
      | some amt =>
        match env.decodeTestnetAddr c.address with
        | none => .error (.invalidAddress c.address)
        | some scriptPubKey =>
          match (if 2 ≤ i0.witness.length then i0.witness[i0.witness.length - 2]? else none),
                (if 1 ≤ i0.witness.length then i0.witness[i0.witness.length - 1]? else none) with
          | some script, some controlBlock =>
            match tx.outs[0]? with
            | none => .error .formatError
            | some out0 =>
              match env.encodeTestnetScript out0.script with
              | none => .error .outputAddressError
              | some outAddr =>
                match env.unisat with
                | none => .error .walletMissing
                | some uni =>
                  match uni.signPsbt
                      { inputs := [{ hash := i0.hash, index := i0.index,
                                     witnessUtxoScript := scriptPubKey,
                                     witnessUtxoValue := amt * 2,
                                     tapLeafScript := [{ leafVersion := 0xc0, script := script,
                                                         controlBlock := controlBlock }],
                                     tapScriptSig := [], sighashDefaultSet := true }],
                        outputs := [{ dest := PsbtDest.byAddress outAddr, value := out0.value }] } with
                  | .error m => .error (.agentError m)
                  | .ok signed =>
                    match signed.inputs[0]? with
                    | none => .error .formatError
                    | some si0 =>
                      if si0.tapScriptSig.isEmpty then .error .noSignatureReturned
                      else
                        match findPlaceholderSlot i0.witness with
                        | none => .error .noPlaceholder
                        | some k =>
                          match uni.pushTx (applyUserSig tx i0 k
                              ((si0.tapScriptSig.headD { pubkey := [], signature := [],
                                                         leafHash := [] }).signature)) with
                          | .error m => .error (.broadcastFailed m)
                          | .ok txid => .ok (applyUserSig tx i0 k
                              ((si0.tapScriptSig.headD { pubkey := [], signature := [],
                                                         leafHash := [] }).signature), txid)
          | _, _ => .error .formatError

/-- `signAndBroadcast` (source lines 711-802): the two early returns on a
missing pending transaction / contract address, the try-block above, the
success transition to `SETTLED_WIN`, and the catch block which only appends
a log entry and leaves the contract fields unchanged. -/
def signAndBroadcast (env : Env) (c : ContractState) : SignOutcome :=
  if c.tx_hex = "" then { contract := c, err := none, broadcastAttempted := false, txid := none }
  else if c.address = "" then { contract := c, err := none, broadcastAttempted := false, txid := none }
  else
    match signAndBroadcastCore env c with
    | .ok (_, txid) =>
      { contract :=
          { c with
              status := "SETTLED_WIN"
              logs := ("廣播成功! TXID: " ++ txid) :: "簽名完成，正在廣播..." ::
                      "正在請求錢包簽名..." :: c.logs }
        err := none
        broadcastAttempted := true
        txid := some txid }
    | .error e =>
      { contract :=
          { c with
              logs := ("簽名/廣播失敗: " ++ signFailMsg e) ::
                (if e.isBroadcast then ["簽名完成，正在廣播...", "正在請求錢包簽名..."]
                 else ["正在請求錢包簽名..."]) ++ c.logs }
        err := some e
        broadcastAttempted := e.isBroadcast
        txid := none }

/-- Errors of the batch claim path `claimAll` (source lines 818-909).
`backendError` is the `data.status === 'error'` early return; the others are
the thrown exceptions of the try-block in their source position.
`duplicateData` is bip174's `Can not add duplicate data to input`, raised by
`psbt.updateInput` when a `tapScriptSig` record with an already-present
(pubkey, leafHash) pair is added to the same input (the index records where
the loop was, for bookkeeping; the thrown message carries no index). -/
inductive ClaimErr where
  | fetchError (m : String)
  | backendError (m : String)
  | emptyTxHex
  | parseError
  | txInMissing (i : Nat)
  | noInputAtIndex (i : Nat)
  | duplicateData (i : Nat)
  | walletMissing
  | agentError (m : String)
  | finalizationError (i : Nat)
  | broadcastFailed (m : String)
deriving DecidableEq

/-- The `e.message` text logged for each batch-claim failure.  The message
thrown by the source itself (empty backend hex) is verbatim; library / runtime
messages are fixed stand-ins. -/
def claimFailMsg : ClaimErr → String
  | .fetchError m => m
  | .backendError m => m
  | .emptyTxHex => "Backend returned empty transaction hex"
  | .parseError => "Transaction parse error"
  | .txInMissing i => "Cannot read properties of undefined at input " ++ toString i
  | .noInputAtIndex i => "No input #" ++ toString i
  | .duplicateData _ => "Can not add duplicate data to input"
  | .walletMissing => "window.unisat is undefined"
  | .agentError m => m
  | .finalizationError i => "Can not finalize input #" ++ toString i
  | .broadcastFailed m => m

/-- The `psbt.addInput` argument of source lines 850-862: previous-output
reference from `tx.ins[i]`, witness UTXO and leaf metadata from the backend
record; no `sighashType` and no signature yet. -/
def mkBatchPsbtIn (tin : TxInput) (m : PsbtInputMeta) : PsbtIn :=
  { hash := tin.hash, index := tin.index, witnessUtxoScript := m.scriptPubKey,
    witnessUtxoValue := m.value, tapLeafScript := [m.tapLeafScript], tapScriptSig := [],
    sighashDefaultSet := false }

/-- One loop iteration of source lines 846-873: read `i = inputData.index`,
`psbt.addInput` with `tx.ins[i]`'s previous-output reference (appending one
PSBT input; `tx.ins[i]` being `undefined` throws), then
`psbt.updateInput(i, {tapScriptSig: [oracleSig]})`, which targets whatever
PSBT input currently sits at position `i` — bip174's `checkForInput` throws
`No input #i` when there is none; otherwise the record is APPENDED to that
input's `tapScriptSig` after bip174's duplicate check on the
(pubkey, leafHash) pair, which throws `Can not add duplicate data to input`
when the pair is already present.  Note the source performs no check that
`inputData.index` matches the position of the record in the metadata list. -/
def addMetaInput (txIns : List TxInput) (acc : List PsbtIn) (m : PsbtInputMeta) :
    Except ClaimErr (List PsbtIn) :=
  match txIns[m.index]? with
  | none => .error (.txInMissing m.index)
  | some tin =>
    match (acc ++ [mkBatchPsbtIn tin m])[m.index]? with
    | none => .error (.noInputAtIndex m.index)
    | some p =>
      if p.tapScriptSig.any (fun s =>
          decide (s.pubkey = m.oracleSig.pubkey ∧ s.leafHash = m.oracleSig.leafHash)) then
        .error (.duplicateData m.index)
      else
        .ok ((acc ++ [mkBatchPsbtIn tin m]).set m.index
          { p with tapScriptSig := p.tapScriptSig ++ [m.oracleSig] })

/-- The whole `for (const inputData of data.psbt_inputs)` loop of source
lines 846-873, folding `addMetaInput` over the metadata list in list order. -/
def buildBatchInputs (txIns : List TxInput) :
    List PsbtInputMeta → List PsbtIn → Except ClaimErr (List PsbtIn)
  | [], acc => .ok acc
  | m :: ms, acc =>
    match addMetaInput txIns acc m with
    | .error e => .error e
    | .ok acc2 => buildBatchInputs txIns ms acc2

/-- Modelled from the spec: the finalizability test bitcoinjs-lib's
`finalizeAllInputs` applies to one taproot script-path input.  The library is
an external dependency (not part of this repository's sources); per spec
§4.3, finalizing an input "requires both the peer signature and the newly
obtained user signature to be present", together with the taproot leaf
metadata. -/
def finalizable (si : SignedIn) : Bool :=
  si.hasLeaf && decide (2 ≤ si.tapScriptSig.length)

/-- Modelled from the spec: `signedPsbt.finalizeAllInputs()` (source line
896) walks the inputs in order and fails on the first one that cannot be
finalized, naming its index (spec §4.3: "fails with `FinalizationError`
naming the first unfinalizable input index"). -/
def finalizeAllInputsFrom : Nat → List SignedIn → Except ClaimErr Unit
  | _, [] => .ok ()
  | i, si :: rest =>
    if finalizable si then finalizeAllInputsFrom (i + 1) rest
    else .error (.finalizationError i)

/-- Whether the batch-claim error arose from the broadcast call itself
(after `pushTx` was already invoked). -/
def ClaimErr.isBroadcast : ClaimErr → Bool
  | .broadcastFailed _ => true
  | _ => false

/-- The result of one `claimAll` invocation; `claimAll` never writes any
`currentContract` field other than `logs`. -/
structure ClaimOutcome where
  err : Option ClaimErr
  broadcastAttempted : Bool
  txid : Option String
deriving DecidableEq

/-- The body of `claimAll` after the pubkey guard (source lines 821-903), in
source order: the backend `claim_all` request, the `data.status === 'error'`
early return, the empty-hex check, decoding the unsigned transaction, the
metadata loop (`buildBatchInputs`), copying the outputs verbatim,
`window.unisat.signPsbt` over the whole batch, `finalizeAllInputs`,
transaction extraction, and `pushTx`.  The result carries the progress log
entries (newest first) made before the failure / success. -/
def claimAllCore (env : Env) : Except (List String × ClaimErr) (List String × String) :=
  match env.claimResp with
  | .error m => .error (["正在請求批量領取..."], .fetchError m)
  | .ok data =>
    if data.status = "error" then .error (["正在請求批量領取..."], .backendError data.message)
    else
      if data.unsigned_tx_hex = "" then
        .error (["批量交易已建立! 正在組裝 PSBT...", "正在請求批量領取..."], .emptyTxHex)
      else
        match env.parseTx data.unsigned_tx_hex with
        | none => .error (["批量交易已建立! 正在組裝 PSBT...", "正在請求批量領取..."], .parseError)
        | some tx =>
          match buildBatchInputs tx.ins data.psbt_inputs [] with
          | .error e => .error (["批量交易已建立! 正在組裝 PSBT...", "正在請求批量領取..."], e)
          | .ok pins =>
            match env.unisat with
            | none =>
              .error (["PSBT 組裝完成，請求錢包簽名...", "批量交易已建立! 正在組裝 PSBT...",
                       "正在請求批量領取..."], .walletMissing)
            | some uni =>
              match uni.signPsbt
                  { inputs := pins
                    outputs := tx.outs.map (fun o =>
                      { dest := PsbtDest.byScript o.script, value := o.value }) } with
              | .error m =>
                .error (["PSBT 組裝完成，請求錢包簽名...", "批量交易已建立! 正在組裝 PSBT...",
                         "正在請求批量領取..."], .agentError m)
              | .ok signed =>
                match finalizeAllInputsFrom 0 signed.inputs with
                | .error e =>
                  .error (["PSBT 組裝完成，請求錢包簽名...", "批量交易已建立! 正在組裝 PSBT...",
                           "正在請求批量領取..."], e)
                | .ok _ =>
                  match uni.pushTx (env.extractTx signed) with
                  | .error m =>
                    .error (["簽名完成，正在廣播...", "PSBT 組裝完成，請求錢包簽名...",
                             "批量交易已建立! 正在組裝 PSBT...", "正在請求批量領取..."],
                            .broadcastFailed m)
                  | .ok txid =>
                    .ok (["簽名完成，正在廣播...", "PSBT 組裝完成，請求錢包簽名...",
                          "批量交易已建立! 正在組裝 PSBT...", "正在請求批量領取..."], txid)

/-- `claimAll` (source lines 818-909): the early return on a missing wallet
pubkey, the body above, and the two exits: on failure the catch block (and
the `data.status === 'error'` early return, which uses the same log format)
appends `批量領取失敗: e.message` and nothing else; on success the txid is
logged.  No `currentContract` field other than `logs` is ever written. -/
def claimAll (env : Env) (userPubkey : String) (c : ContractState) :
    ContractState × ClaimOutcome :=
  if userPubkey = "" then
    (c, { err := none, broadcastAttempted := false, txid := none })
  else
    match claimAllCore env with
    | .error (ls, e) =>
      (addLogs c (("批量領取失敗: " ++ claimFailMsg e) :: ls),
       { err := some e, broadcastAttempted := e.isBroadcast, txid := none })
    | .ok (ls, txid) =>
      (addLogs c (("批量領取成功! TXID: " ++ txid) :: ls),
       { err := none, broadcastAttempted := true, txid := some txid })

/-- A push-notification event as the websocket handler reads it
(source lines 493-511). -/
structure WsEvent where
  type : String
  contract_id : Int
  result : String
  status : String
  tx_hex : String
  message : String
deriving DecidableEq

/-- The `ws.onmessage` handler (source lines 493-511): always log the
notification, then mutate the tracked contract only when `currentContract.id`
is truthy and strictly equals the event's `contract_id`. -/
def onMessage (c : ContractState) (e : WsEvent) : ContractState :=
  let c1 := pushLog c ("[WS] 收到通知: " ++ e.type ++ " - ID: " ++ toString e.contract_id)
  if truthyId c1.id = true ∧ c1.id = some e.contract_id then
    if e.type = "MATCHED" then
      { c1 with status := "MATCHED", logs := "House 已跟單！合約生效中。" :: c1.logs }
    else if e.type = "SETTLED" then
      { c1 with status := e.result, logs := ("合約已結算: " ++ e.result) :: c1.logs }
    else if e.type = "ACTION_REQUIRED" then
      { c1 with
          status := e.status
          tx_hex := e.tx_hex
          logs := ("[需行動] " ++ e.message) :: c1.logs }
    else c1
  else c1

/-- The backend's `create_contract` response body. -/
structure CreateResp where
  status : String
  contract_id : Int
  deposit_address : String
deriving DecidableEq

/-- The environment of one `createAndDeposit` invocation: the backend create
response (or a fetch exception), the wallet's `sendBitcoin` capability, and
the backend `cancel_contract` call. -/
structure FlowEnv where
  createResp : Except String CreateResp
  sendBitcoin : String → Int → Except String String
  cancelContract : Int → Except String Unit

/-- The result of one `createAndDeposit` invocation: the post-state, the id a
`cancel_contract` request was issued for (if any), and whether the delayed
automatic match was scheduled. -/
structure FlowOutcome where
  contract : ContractState
  cancelRequested : Option Int
  matchScheduled : Bool

/-- The catch block of `createAndDeposit` (source lines 623-641): log the
error; then, only when `currentContract.id` is truthy, issue the best-effort
`cancel_contract` request (its own failure only logged) and clear the local
contract id, address and status. -/
def cleanupOnFailure (env : FlowEnv) (c : ContractState) (m : String) : FlowOutcome :=
  let c1 := pushLog c ("流程錯誤: " ++ m)
  if truthyId c1.id then
    let c2 := pushLog c1 "交易失敗，正在清理合約..."
    let cid := c1.id.getD 0
    let c3 :=
      match env.cancelContract cid with
      | .ok _ => pushLog c2 ("合約 ID " ++ toString cid ++ " 已刪除")
      | .error cm => pushLog c2 ("清理合約失敗: " ++ cm)
    { contract := { c3 with id := none, address := "", status := "" }
      cancelRequested := some cid
      matchScheduled := false }
  else { contract := c1, cancelRequested := none, matchScheduled := false }

/-- `createAndDeposit` (source lines 584-642): create the contract, record
id/address/status on success, invoke the wallet's `sendBitcoin` for the form
amount, and on success schedule the delayed automatic match; any exception is
handled by `cleanupOnFailure`. -/
def createAndDeposit (env : FlowEnv) (walletConnected : Bool) (amount : Int)
    (c : ContractState) : FlowOutcome :=
  if walletConnected = false then
    { contract := c, cancelRequested := none, matchScheduled := false }
  else
    let c1 := pushLog c "1. 正在建立合約..."
    match env.createResp with
    | .error m => cleanupOnFailure env c1 m
    | .ok data =>
      if data.status ≠ "success" then
        { contract := pushLog c1 ("建立失敗: " ++ data.status)
          cancelRequested := none
          matchScheduled := false }
      else
        let c2 := pushLog (pushLog (pushLog
          { c1 with id := some data.contract_id, address := data.deposit_address,
                    status := "CREATED" }
          ("合約建立成功! ID: " ++ toString data.contract_id))
          ("請入金到: " ++ data.deposit_address))
          ("2. 正在呼叫錢包發送 " ++ toString amount ++ " sats...")
        match env.sendBitcoin c2.address amount with
        | .ok txid =>
          { contract := pushLog (pushLog c2 ("入金交易已廣播! TXID: " ++ txid))
              "3. 等待交易傳播後自動觸發 Match (3秒)..."
            cancelRequested := none
            matchScheduled := true }
        | .error m => cleanupOnFailure env c2 m

/-! Concrete sample data used to instantiate the theorems below. -/

/-- A witness stack of the shape the backend produces (spec §8 scenario C):
two signature slots (the first one empty, awaiting this client), then the
leaf script and the control block. -/
def demoWitness : List (List Nat) := [[], [1], [2, 2], [3, 3]]

def demoTxIn : TxInput := { hash := [9], index := 0, sequence := 0, witness := demoWitness }

def demoTx : Tx :=
  { version := 2, ins := [demoTxIn], outs := [{ script := [5], value := 800 }], locktime := 0 }

/-- A signing agent that returns a signed PSBT with an empty `tapScriptSig`. -/
def demoUnisatEmptySig : Unisat :=
  { signPsbt := fun _ => .ok { inputs := [{ hasLeaf := true, tapScriptSig := [] }] }
    pushTx := fun _ => .ok "txid0" }

def demoEnvNoSig : Env :=
  { parseTx := fun _ => some demoTx
    decodeTestnetAddr := fun _ => some [0, 32]
    encodeTestnetScript := fun _ => some "tb1out"
    extractTx := fun _ => demoTx
    claimResp := .error "unused"
    unisat := some demoUnisatEmptySig }

/-- A contract state as the program actually reaches the signing path:
`tx_hex`/`status` delivered by an `ACTION_REQUIRED` event, `amount` absent
(`none`), exactly as the source's `currentContract` object. -/
def demoContractNoAmount : ContractState :=
  { id := some 1, address := "tb1q", status := "WAITING_USER_SIG", tx_hex := "aa",
    amount := none, logs := [] }

/-- The same state with the `amount` field hypothetically present, to
exercise the signing steps beyond the `BigInt(NaN)` failure site. -/
def demoContractWithAmount : ContractState := { demoContractNoAmount with amount := some 1000 }

def demoEnvBadAddr : Env := { demoEnvNoSig with decodeTestnetAddr := fun _ => none }

def demoContractMainnet : ContractState := { demoContractWithAmount with address := "bc1qmainnet" }

def demoEnvNoUnisat : Env := { demoEnvNoSig with unisat := none }

def demoLeaf : TapLeaf := { leafVersion := 192, script := [81], controlBlock := [2, 2] }

def demoOracleSig : TapSig := { pubkey := [3], signature := [4], leafHash := [5] }

def demoUserSig : TapSig := { pubkey := [6], signature := [7], leafHash := [5] }

def demoMeta (i : Nat) : PsbtInputMeta :=
  { index := i, scriptPubKey := [81, 1], value := 2000, tapLeafScript := demoLeaf,
    oracleSig := demoOracleSig }

def demoBatchTx : Tx :=
  { version := 2
    ins := [{ hash := [10], index := 0, sequence := 0, witness := [] },
            { hash := [11], index := 1, sequence := 0, witness := [] }]
    outs := [{ script := [5], value := 3900 }]
    locktime := 0 }

def demoClaimResp : ClaimAllResp :=
  { status := "success", message := "", unsigned_tx_hex := "bb",
    psbt_inputs := [demoMeta 0, demoMeta 1] }

/-- A signing agent whose signed batch PSBT leaves input 1 with only the
oracle signature (the user signature is missing there), so finalization must
fail at index 1. -/
def demoUnisatUnfin : Unisat :=
  { signPsbt := fun _ => .ok
      { inputs := [{ hasLeaf := true, tapScriptSig := [demoOracleSig, demoUserSig] },
                   { hasLeaf := true, tapScriptSig := [demoOracleSig] }] }
    pushTx := fun _ => .ok "txid1" }

def demoEnvClaim : Env :=
  { parseTx := fun _ => some demoBatchTx
    decodeTestnetAddr := fun _ => some [0, 32]
    encodeTestnetScript := fun _ => some "tb1out"
    extractTx := fun _ => demoBatchTx
    claimResp := .ok demoClaimResp
    unisat := some demoUnisatUnfin }

/-- Backend answers create with contract id `0` (a falsy JavaScript value)
and the deposit send throws. -/
def demoFlowEnvZero : FlowEnv :=
  { createResp := .ok { status := "success", contract_id := 0, deposit_address := "tb1dep" }
    sendBitcoin := fun _ _ => .error "send failed"
    cancelContract := fun _ => .ok () }

/-- Spec §8 scenario B: create succeeds with id `42`, the deposit send
throws, and the cancel request itself also fails. -/
def demoFlowEnv42 : FlowEnv :=
  { createResp := .ok { status := "success", contract_id := 42, deposit_address := "tb1dep" }
    sendBitcoin := fun _ _ => .error "boom"
    cancelContract := fun _ => .error "cancel also failed" }

def demoTracked : ContractState :=
  { id := some 7, address := "tb1q", status := "PENDING_MATCH", tx_hex := "",
    amount := none, logs := [] }

def demoMatchedEvent : WsEvent :=
  { type := "MATCHED", contract_id := 7, result := "", status := "", tx_hex := "", message := "" }

/-! List helper lemmas. -/

theorem getElem?_set_ne {α : Type} :
    ∀ (l : List α) (i j : Nat) (a : α), i ≠ j → (l.set i a)[j]? = l[j]? := by
  intro l
  induction l with
  | nil => intro i j a _; simp
  | cons x xs ih =>
    intro i j a hij
    cases i with
    | zero =>
      cases j with
      | zero => exact absurd rfl hij
      | succ j => simp [List.set]
    | succ i =>
      cases j with
      | zero => simp [List.set]
      | succ j => simpa [List.set] using ih i j a (by omega)

theorem getElem?_set_self {α : Type} :
    ∀ (l : List α) (i : Nat) (a : α), i < l.length → (l.set i a)[i]? = some a := by
  intro l
  induction l with
  | nil => intro i a h; simp at h
  | cons x xs ih =>
    intro i a h
    cases i with
    | zero => simp [List.set]
    | succ i => simpa [List.set] using ih i a (by simpa using h)

theorem getElem?_eq_getD {α : Type} :
    ∀ (l : List α) (j : Nat) (d : α), j < l.length → l[j]? = some (l.getD j d) := by
  intro l
  induction l with
  | nil => intro j d h; simp at h
  | cons x xs ih =>
    intro j d h
    cases j with
    | zero => simp [List.getD]
    | succ j => simpa [List.getD] using ih j d (by simpa using h)

theorem take_getD {α : Type} :
    ∀ (l : List α) (n j : Nat) (d : α), j < n → (l.take n).getD j d = l.getD j d := by
  intro l
  induction l with
  | nil => intro n j d _; simp
  | cons x xs ih =>
    intro n j d hj
    cases n with
    | zero => omega
    | succ n =>
      cases j with
      | zero => simp [List.getD]
      | succ j => simpa [List.getD] using ih n j d (by omega)

theorem firstEmptyIdx_some :
    ∀ (l : List (List Nat)) (k : Nat), firstEmptyIdx l = some k →
      k < l.length ∧ l.getD k [] = [] ∧ ∀ j, j < k → l.getD j [] ≠ [] := by
  intro l
  induction l with
  | nil => intro k h; simp [firstEmptyIdx] at h
  | cons x xs ih =>
    intro k h
    rw [firstEmptyIdx] at h
    split at h
    · rename_i hx
      obtain rfl : k = 0 := by simpa using h.symm
      exact ⟨by simp, by simpa [List.getD] using hx, fun j hj => absurd hj (by omega)⟩
    · rename_i hx
      obtain ⟨k2, hk2, rfl⟩ : ∃ k2, firstEmptyIdx xs = some k2 ∧ k2 + 1 = k := by
        simpa using h
      obtain ⟨hlt, hempty, hfilled⟩ := ih k2 hk2
      refine ⟨by simpa using hlt, by simpa [List.getD] using hempty, ?_⟩
      intro j hj
      cases j with
      | zero => simpa [List.getD] using hx
      | succ j => simpa [List.getD] using hfilled j (by omega)

theorem firstEmptyIdx_none :
    ∀ (l : List (List Nat)), (∀ j, j < l.length → l.getD j [] ≠ []) →
      firstEmptyIdx l = none := by
  intro l
  induction l with
  | nil => intro _; rfl
  | cons x xs ih =>
    intro h
    have hx : x ≠ [] := by simpa [List.getD] using h 0 (by simp)
    have hxs : firstEmptyIdx xs = none := by
      refine ih ?_
      intro j hj
      simpa [List.getD] using h (j + 1) (by simpa using hj)
    rw [firstEmptyIdx, if_neg hx, hxs]
    rfl

theorem findPlaceholderSlot_some (w : List (List Nat)) (k : Nat)
    (h : findPlaceholderSlot w = some k) :
    k < w.length - 2 ∧ w.getD k [] = [] ∧ ∀ j, j < k → w.getD j [] ≠ [] := by
  rw [findPlaceholderSlot] at h
  obtain ⟨hlt, hempty, hfilled⟩ := firstEmptyIdx_some _ k h
  have hlen : (w.take (w.length - 2)).length = w.length - 2 := by
    simp [List.length_take]
  rw [hlen] at hlt
  refine ⟨hlt, ?_, ?_⟩
  · rw [← take_getD w (w.length - 2) k [] hlt]
    exact hempty
  · intro j hj
    rw [← take_getD w (w.length - 2) j [] (by omega)]
    exact hfilled j hj

theorem findPlaceholderSlot_none (w : List (List Nat))
    (h : ∀ j, j < w.length - 2 → w.getD j [] ≠ []) :
    findPlaceholderSlot w = none := by
  rw [findPlaceholderSlot]
  refine firstEmptyIdx_none _ ?_
  intro j hj
  have hlen : (w.take (w.length - 2)).length = w.length - 2 := by
    simp [List.length_take]
  rw [hlen] at hj
  rw [take_getD w (w.length - 2) j [] hj]
  exact h j hj

/-! Behaviour of the `signAndBroadcast` wrapper around its core. -/

theorem signAndBroadcast_err (env : Env) (c : ContractState) (e : SignErr)
    (h : (signAndBroadcast env c).err = some e) :
    (signAndBroadcast env c).broadcastAttempted = e.isBroadcast ∧
    (signAndBroadcast env c).txid = none ∧
    (signAndBroadcast env c).contract.id = c.id ∧
    (signAndBroadcast env c).contract.address = c.address ∧
    (signAndBroadcast env c).contract.status = c.status ∧
    (signAndBroadcast env c).contract.tx_hex = c.tx_hex ∧
    (signAndBroadcast env c).contract.amount = c.amount ∧
    (signAndBroadcast env c).contract.logs.head? =
      some ("簽名/廣播失敗: " ++ signFailMsg e) := by
  by_cases h1 : c.tx_hex = ""
  · simp [signAndBroadcast, h1] at h
  · by_cases h2 : c.address = ""
    · simp [signAndBroadcast, h1, h2] at h
    · cases hc : signAndBroadcastCore env c with
      | ok v =>
        obtain ⟨t, txid⟩ := v
        rw [signAndBroadcast, if_neg h1, if_neg h2, hc] at h
        simp at h
      | error e2 =>
        rw [signAndBroadcast, if_neg h1, if_neg h2, hc] at h
        obtain rfl : e2 = e := by simpa using h
        rw [signAndBroadcast, if_neg h1, if_neg h2, hc]
        simp

theorem signAndBroadcast_status_changed (env : Env) (c : ContractState)
    (h : (signAndBroadcast env c).contract.status ≠ c.status) :
    (signAndBroadcast env c).err = none ∧
    (signAndBroadcast env c).contract.status = "SETTLED_WIN" ∧
    ∃ t, (signAndBroadcast env c).txid = some t := by
  by_cases h1 : c.tx_hex = ""
  · simp [signAndBroadcast, h1] at h
  · by_cases h2 : c.address = ""
    · simp [signAndBroadcast, h1, h2] at h
    · cases hc : signAndBroadcastCore env c with
      | ok v =>
        obtain ⟨t, txid⟩ := v
        rw [signAndBroadcast, if_neg h1, if_neg h2, hc]
        exact ⟨rfl, rfl, txid, rfl⟩
      | error e2 =>
        rw [signAndBroadcast, if_neg h1, if_neg h2, hc] at h
        simp at h

theorem core_noWallet (env : Env) (c : ContractState) (hu : env.unisat = none) :
    ∃ e, signAndBroadcastCore env c = .error e ∧ e.isBroadcast = false := by
  rw [signAndBroadcastCore]
  repeat' split
  all_goals first
    | exact ⟨_, rfl, rfl⟩
    | simp_all

theorem signAndBroadcast_noWallet (env : Env) (c : ContractState) (hu : env.unisat = none) :
    (signAndBroadcast env c).broadcastAttempted = false ∧
    (signAndBroadcast env c).txid = none ∧
    (signAndBroadcast env c).contract.id = c.id ∧
    (signAndBroadcast env c).contract.status = c.status ∧
    (signAndBroadcast env c).contract.tx_hex = c.tx_hex ∧
    (c.tx_hex ≠ "" → c.address ≠ "" →
      ∃ e, (signAndBroadcast env c).err = some e ∧
        (signAndBroadcast env c).contract.logs.head? =
          some ("簽名/廣播失敗: " ++ signFailMsg e)) := by
  by_cases h1 : c.tx_hex = ""
  · refine ⟨by simp [signAndBroadcast, h1], by simp [signAndBroadcast, h1],
      by simp [signAndBroadcast, h1], by simp [signAndBroadcast, h1],
      by simp [signAndBroadcast, h1], fun hx _ => absurd h1 hx⟩
  · by_cases h2 : c.address = ""
    · refine ⟨by simp [signAndBroadcast, h1, h2], by simp [signAndBroadcast, h1, h2],
        by simp [signAndBroadcast, h1, h2], by simp [signAndBroadcast, h1, h2],
        by simp [signAndBroadcast, h1, h2], fun _ hx => absurd h2 hx⟩
    · obtain ⟨e, hc, hb⟩ := core_noWallet env c hu
      have herr : (signAndBroadcast env c).err = some e := by
        rw [signAndBroadcast, if_neg h1, if_neg h2, hc]
      obtain ⟨hba, ht, hid, _, hst, hth, _, hlog⟩ := signAndBroadcast_err env c e herr
      exact ⟨by rw [hba, hb], ht, hid, hst, hth, fun _ _ => ⟨e, herr, hlog⟩⟩

/-! Behaviour of `claimAll`. -/

theorem claimAll_state (env : Env) (pk : String) (c : ContractState) :
    (claimAll env pk c).1.id = c.id ∧ (claimAll env pk c).1.address = c.address ∧
    (claimAll env pk c).1.status = c.status ∧ (claimAll env pk c).1.tx_hex = c.tx_hex ∧
    (claimAll env pk c).1.amount = c.amount := by
  by_cases hpk : pk = ""
  · rw [claimAll, if_pos hpk]
    exact ⟨rfl, rfl, rfl, rfl, rfl⟩
  · cases hc : claimAllCore env with
    | error v =>
      obtain ⟨ls, e⟩ := v
      rw [claimAll, if_neg hpk, hc]
      exact ⟨rfl, rfl, rfl, rfl, rfl⟩
    | ok v =>
      obtain ⟨ls, t⟩ := v
      rw [claimAll, if_neg hpk, hc]
      exact ⟨rfl, rfl, rfl, rfl, rfl⟩

theorem claimAll_err (env : Env) (pk : String) (c : ContractState) (e : ClaimErr)
    (h : (claimAll env pk c).2.err = some e) :
    (claimAll env pk c).2.broadcastAttempted = e.isBroadcast ∧
    (claimAll env pk c).2.txid = none ∧
    (claimAll env pk c).1.logs.head? = some ("批量領取失敗: " ++ claimFailMsg e) := by
  by_cases hpk : pk = ""
  · rw [claimAll, if_pos hpk] at h
    simp at h
  · cases hc : claimAllCore env with
    | error v =>
      obtain ⟨ls, e2⟩ := v
      rw [claimAll, if_neg hpk, hc] at h
      obtain rfl : e2 = e := by simpa using h
      rw [claimAll, if_neg hpk, hc]
      exact ⟨rfl, rfl, rfl⟩
    | ok v =>
      obtain ⟨ls, t⟩ := v
      rw [claimAll, if_neg hpk, hc] at h
      simp at h

theorem claimAll_ok (env : Env) (pk : String) (c : ContractState)
    (hpk : pk ≠ "") (herr : (claimAll env pk c).2.err = none) :
    ∃ ls r, claimAllCore env = .ok (ls, r) := by
  cases hc : claimAllCore env with
  | error v =>
    obtain ⟨ls, e2⟩ := v
    rw [claimAll, if_neg hpk, hc] at herr
    simp at herr
  | ok v =>
    obtain ⟨ls, t⟩ := v
    exact ⟨ls, t, rfl⟩

theorem buildBatchInputs_err_notBroadcast (txIns : List TxInput) :
    ∀ (ms : List PsbtInputMeta) (acc : List PsbtIn) (e : ClaimErr),
      buildBatchInputs txIns ms acc = .error e → ClaimErr.isBroadcast e = false := by
  intro ms
  induction ms with
  | nil => intro acc e h; simp [buildBatchInputs] at h
  | cons m ms ih =>
    intro acc e h
    rw [buildBatchInputs] at h
    cases hti : txIns[m.index]? with
    | none =>
      simp only [addMetaInput, hti] at h
      obtain rfl : ClaimErr.txInMissing m.index = e := by simpa using h
      rfl
    | some tin =>
      cases hacc : (acc ++ [mkBatchPsbtIn tin m])[m.index]? with
      | none =>
        simp only [addMetaInput, hti, hacc] at h
        obtain rfl : ClaimErr.noInputAtIndex m.index = e := by simpa using h
        rfl
      | some p =>
        simp only [addMetaInput, hti, hacc] at h
        by_cases hdup : (p.tapScriptSig.any (fun s =>
            decide (s.pubkey = m.oracleSig.pubkey ∧ s.leafHash = m.oracleSig.leafHash))) = true
        · rw [if_pos hdup] at h
          obtain rfl : ClaimErr.duplicateData m.index = e := by simpa using h
          rfl
        · rw [if_neg hdup] at h
          exact ih _ e h

theorem finalizeFrom_err_notBroadcast :
    ∀ (l : List SignedIn) (k : Nat) (e : ClaimErr),
      finalizeAllInputsFrom k l = .error e → ClaimErr.isBroadcast e = false := by
  intro l
  induction l with
  | nil => intro k e h; simp [finalizeAllInputsFrom] at h
  | cons si rest ih =>
    intro k e h
    rw [finalizeAllInputsFrom] at h
    by_cases hf : finalizable si
    · rw [if_pos hf] at h
      exact ih (k + 1) e h
    · rw [if_neg hf] at h
      obtain rfl : ClaimErr.finalizationError k = e := by simpa using h
      rfl

theorem claimAllCore_noWallet (env : Env) (hu : env.unisat = none) :
    ∃ ls e, claimAllCore env = .error (ls, e) ∧ ClaimErr.isBroadcast e = false := by
  rw [claimAllCore]
  repeat' split
  all_goals first
    | exact ⟨_, _, rfl, rfl⟩
    | (rename_i e heq; exact ⟨_, _, rfl, buildBatchInputs_err_notBroadcast _ _ _ e heq⟩)
    | (rename_i e heq; exact ⟨_, _, rfl, finalizeFrom_err_notBroadcast _ _ e heq⟩)
    | simp_all

theorem claimAll_noWallet (env : Env) (pk : String) (c : ContractState)
    (hu : env.unisat = none) :
    (claimAll env pk c).2.broadcastAttempted = false ∧
    (claimAll env pk c).2.txid = none ∧
    (pk ≠ "" → ∃ e, (claimAll env pk c).2.err = some e ∧
      (claimAll env pk c).1.logs.head? = some ("批量領取失敗: " ++ claimFailMsg e)) := by
  by_cases hpk : pk = ""
  · rw [claimAll, if_pos hpk]
    exact ⟨rfl, rfl, fun hx => absurd hpk hx⟩
  · obtain ⟨ls, e, hc, hb⟩ := claimAllCore_noWallet env hu
    have herr : (claimAll env pk c).2.err = some e := by
      rw [claimAll, if_neg hpk, hc]
    obtain ⟨hba, ht, hlog⟩ := claimAll_err env pk c e herr
    exact ⟨by rw [hba, hb], ht, fun _ => ⟨e, herr, hlog⟩⟩

theorem claimAllCore_pastFinalize (env : Env) (r : Except (List String × ClaimErr) (List String × String))
    (h : claimAllCore env = r)
    (hr : (∃ ls t, r = .ok (ls, t)) ∨ ∃ ls m, r = .error (ls, .broadcastFailed m)) :
    ∃ data tx pins uni signed,
      env.claimResp = .ok data ∧
      env.parseTx data.unsigned_tx_hex = some tx ∧
      buildBatchInputs tx.ins data.psbt_inputs [] = .ok pins ∧
      env.unisat = some uni ∧
      uni.signPsbt
        { inputs := pins
          outputs := tx.outs.map (fun o =>
            { dest := PsbtDest.byScript o.script, value := o.value }) } = .ok signed ∧
      finalizeAllInputsFrom 0 signed.inputs = .ok () := by
  rw [claimAllCore] at h
  split at h
  next m heq => subst h; simp at hr
  next data heq =>
    split at h
    next hs => subst h; simp at hr
    next hs =>
      split at h
      next hh => subst h; simp at hr
      next hh =>
        split at h
        next hpt => subst h; simp at hr
        next tx hpt =>
          split at h
          next e hb =>
            subst h
            simp at hr
            obtain ⟨m, rfl⟩ := hr
            have := buildBatchInputs_err_notBroadcast _ _ _ _ hb
            simp [ClaimErr.isBroadcast] at this
          next pins hb =>
            split at h
            next hun => subst h; simp at hr
            next uni hun =>
              split at h
              next m hsg => subst h; simp at hr
              next signed hsg =>
                split at h
                next e hf =>
                  subst h
                  simp at hr
                  obtain ⟨m, rfl⟩ := hr
                  have := finalizeFrom_err_notBroadcast _ _ _ hf
                  simp [ClaimErr.isBroadcast] at this
                next u hf =>
                  exact ⟨data, tx, pins, uni, signed, heq, hpt, hb, hun, hsg, hf⟩

theorem isBroadcast_true (e : ClaimErr) (h : ClaimErr.isBroadcast e = true) :
    ∃ m, e = .broadcastFailed m := by
  cases e <;> simp_all [ClaimErr.isBroadcast]

theorem claimAll_broadcast_finalized (env : Env) (pk : String) (c : ContractState)
    (h : (claimAll env pk c).2.broadcastAttempted = true) :
    ∃ data tx pins uni signed,
      env.claimResp = .ok data ∧
      env.parseTx data.unsigned_tx_hex = some tx ∧
      buildBatchInputs tx.ins data.psbt_inputs [] = .ok pins ∧
      env.unisat = some uni ∧
      uni.signPsbt
        { inputs := pins
          outputs := tx.outs.map (fun o =>
            { dest := PsbtDest.byScript o.script, value := o.value }) } = .ok signed ∧
      finalizeAllInputsFrom 0 signed.inputs = .ok () := by
  by_cases hpk : pk = ""
  · rw [claimAll, if_pos hpk] at h
    simp at h
  · cases hc : claimAllCore env with
    | error v =>
      obtain ⟨ls, e⟩ := v
      rw [claimAll, if_neg hpk, hc] at h
      obtain ⟨m, rfl⟩ := isBroadcast_true e (by simpa using h)
      exact claimAllCore_pastFinalize env _ hc (Or.inr ⟨ls, m, rfl⟩)
    | ok v =>
      obtain ⟨ls, t⟩ := v
      exact claimAllCore_pastFinalize env _ hc (Or.inl ⟨ls, t, rfl⟩)

theorem claimAll_finErr (env : Env) (pk : String) (c : ContractState) (i : Nat)
    (h : (claimAll env pk c).2.err = some (ClaimErr.finalizationError i)) :
    (claimAll env pk c).2.broadcastAttempted = false ∧ (claimAll env pk c).2.txid = none := by
  obtain ⟨hba, ht, _⟩ := claimAll_err env pk c (ClaimErr.finalizationError i) h
  exact ⟨by rw [hba]; rfl, ht⟩

/-! Behaviour of the spec-modelled batch finalizer. -/

theorem finalizeFrom_err :
    ∀ (l : List SignedIn) (k i : Nat),
      finalizeAllInputsFrom k l = .error (.finalizationError i) →
      k ≤ i ∧ i - k < l.length ∧
      finalizable (l.getD (i - k) defaultSignedIn) = false ∧
      ∀ j, j < i - k → finalizable (l.getD j defaultSignedIn) = true := by
  intro l
  induction l with
  | nil => intro k i h; simp [finalizeAllInputsFrom] at h
  | cons si rest ih =>
    intro k i h
    rw [finalizeAllInputsFrom] at h
    by_cases hf : finalizable si
    · rw [if_pos hf] at h
      obtain ⟨hki, hlen, hbad, hgood⟩ := ih (k + 1) i h
      have hk : k ≤ i := by omega
      have hik : i - k = (i - (k + 1)) + 1 := by omega
      refine ⟨hk, by simpa [hik] using by omega, ?_, ?_⟩
      · rw [hik]
        simpa [List.getD] using hbad
      · intro j hj
        cases j with
        | zero => simpa [List.getD] using hf
        | succ j =>
          have : j < i - (k + 1) := by omega
          simpa [List.getD] using hgood j this
    · rw [if_neg hf] at h
      obtain rfl : k = i := by simpa using h
      exact ⟨le_refl k, by simp, by simpa [List.getD] using hf, fun j hj => by omega⟩

/-! Behaviour of the batch PSBT input loop. -/

/-- C1 (code bug): the spec says the single-contract PSBT's witness-UTXO
value equals twice the contract's principal amount
(`BigInt(currentContract.amount * 2)`, source line 731) — but the
`currentContract` object (source lines 465-471) has no `amount` field and no
statement assigns one, so the read yields `undefined`, the multiplication
yields `NaN`, and `BigInt(NaN)` throws.  Consequently every invocation of
`signAndBroadcast` that reaches the value computation (raw transaction parsed,
input 0 present) aborts with the `amountNaN` error before any PSBT is built:
no broadcast is attempted and the contract status is unchanged. -/
theorem c1_code_bug (env : Env) (c : ContractState) (tx : Tx) (i0 : TxInput)
    (ham : c.amount = none) (h1 : c.tx_hex ≠ "") (h2 : c.address ≠ "")
    (hp : env.parseTx c.tx_hex = some tx) (hi : tx.ins[0]? = some i0) :
    (signAndBroadcast env c).err = some SignErr.amountNaN ∧
    (signAndBroadcast env c).broadcastAttempted = false ∧
    (signAndBroadcast env c).txid = none ∧
    (signAndBroadcast env c).contract.status = c.status := by
  have hcore : signAndBroadcastCore env c = .error .amountNaN := by
    rw [signAndBroadcastCore]
    simp only [hp, hi, ham]
  rw [signAndBroadcast, if_neg h1, if_neg h2, hcore]
  exact ⟨rfl, rfl, rfl, rfl⟩

/-- Witness for C1 at a concrete reachable state: a contract in
`WAITING_USER_SIG` with a pending transaction, whose `amount` read is
`undefined` exactly as in the program. -/
theorem c1_witness :
    (signAndBroadcast demoEnvNoSig demoContractNoAmount).err = some SignErr.amountNaN ∧
    (signAndBroadcast demoEnvNoSig demoContractNoAmount).broadcastAttempted = false ∧
    (signAndBroadcast demoEnvNoSig demoContractNoAmount).txid = none ∧
    (signAndBroadcast demoEnvNoSig demoContractNoAmount).contract.status =
      demoContractNoAmount.status :=
  c1_code_bug demoEnvNoSig demoContractNoAmount demoTx demoTxIn rfl (by decide) (by decide)
    rfl rfl

/-- C3: for every witness stack of length ≥ 4 processed by the
single-contract signing path, the placeholder scan returns the first
zero-length element among all elements except the final two (leaf script and
control block); if no such element exists it returns nothing, and whenever
`signAndBroadcast` signals `noPlaceholder` nothing is broadcast, nothing is
inserted and the contract status is unchanged. -/
theorem c3 (w : List (List Nat)) (_h4 : 4 ≤ w.length) :
    (∀ k, findPlaceholderSlot w = some k →
      k < w.length - 2 ∧ w.getD k [] = [] ∧ ∀ j, j < k → w.getD j [] ≠ []) ∧
    ((∀ j, j < w.length - 2 → w.getD j [] ≠ []) → findPlaceholderSlot w = none) ∧
    (∀ env c, (signAndBroadcast env c).err = some SignErr.noPlaceholder →
      (signAndBroadcast env c).broadcastAttempted = false ∧
      (signAndBroadcast env c).txid = none ∧
      (signAndBroadcast env c).contract.status = c.status) := by
  refine ⟨fun k hk => findPlaceholderSlot_some w k hk, findPlaceholderSlot_none w, ?_⟩
  intro env c h
  obtain ⟨hb, ht, _, _, hst, _, _, _⟩ := signAndBroadcast_err env c _ h
  exact ⟨by rw [hb]; rfl, ht, hst⟩

/-- Witness for C3 on the scenario-C stack `[ [], sig2, script, control ]`:
the scan picks index 0, which lies strictly before the final two elements and
is empty. -/
theorem c3_witness :
    findPlaceholderSlot demoWitness = some 0 ∧ 0 < demoWitness.length - 2 ∧
    demoWitness.getD 0 [] = [] := by
  have h := (c3 demoWitness (by decide)).1 0 (by decide)
  exact ⟨by decide, h.1, h.2.1⟩

/-- C4: inserting the user signature changes only the placeholder slot: the
final transaction equals the input transaction in version, locktime, outputs
and every input except input 0, whose witness equals the old witness with
only slot `k` replaced; in particular the leaf script (second-to-last) and
control block (last) elements are bit-identical before and after. -/
theorem c4 (tx : Tx) (i0 : TxInput) (k : Nat) (sig : List Nat)
    (h0 : tx.ins[0]? = some i0) (hk : findPlaceholderSlot i0.witness = some k) :
    (applyUserSig tx i0 k sig).version = tx.version ∧
    (applyUserSig tx i0 k sig).locktime = tx.locktime ∧
    (applyUserSig tx i0 k sig).outs = tx.outs ∧
    (applyUserSig tx i0 k sig).ins.length = tx.ins.length ∧
    (∀ j, j ≠ 0 → (applyUserSig tx i0 k sig).ins[j]? = tx.ins[j]?) ∧
    (applyUserSig tx i0 k sig).ins[0]? = some { i0 with witness := i0.witness.set k sig } ∧
    k + 2 < i0.witness.length ∧
    (i0.witness.set k sig).length = i0.witness.length ∧
    (∀ j, j ≠ k → (i0.witness.set k sig)[j]? = i0.witness[j]?) ∧
    (i0.witness.set k sig)[i0.witness.length - 2]? = i0.witness[i0.witness.length - 2]? ∧
    (i0.witness.set k sig)[i0.witness.length - 1]? = i0.witness[i0.witness.length - 1]? := by
  obtain ⟨hlt, -, -⟩ := findPlaceholderSlot_some _ _ hk
  have hlen : 0 < tx.ins.length := by
    cases hins : tx.ins with
    | nil => rw [hins] at h0; simp at h0
    | cons a l => simp [hins]
  have hk2 : k + 2 < i0.witness.length := by omega
  refine ⟨rfl, rfl, rfl, by simp [applyUserSig], ?_, ?_, hk2, by simp, ?_, ?_, ?_⟩
  · intro j hj
    exact getElem?_set_ne tx.ins 0 j _ (fun hx => hj hx.symm)
  · exact getElem?_set_self tx.ins 0 _ hlen
  · intro j hj
    exact getElem?_set_ne i0.witness k j sig (fun hx => hj hx.symm)
  · exact getElem?_set_ne i0.witness k _ sig (by omega)
  · exact getElem?_set_ne i0.witness k _ sig (by omega)

/-- Witness for C4 on the scenario-C transaction: outputs are untouched and
the last two witness elements (leaf script, control block) are unchanged
after inserting a signature at slot 0. -/
theorem c4_witness :
    (applyUserSig demoTx demoTxIn 0 [7, 7]).outs = demoTx.outs ∧
    (demoTxIn.witness.set 0 [7, 7])[demoTxIn.witness.length - 2]? =
      demoTxIn.witness[demoTxIn.witness.length - 2]? ∧
    (demoTxIn.witness.set 0 [7, 7])[demoTxIn.witness.length - 1]? =
      demoTxIn.witness[demoTxIn.witness.length - 1]? := by
  obtain ⟨-, -, h3, -, -, -, -, -, -, h10, h11⟩ :=
    c4 demoTx demoTxIn 0 [7, 7] (by decide) (by decide)
  exact ⟨h3, h10, h11⟩

/-- C5: in `signAndBroadcast`, (i) on any failure the error is logged as the
newest log entry and the contract's id, address, status and pending hex are
left unchanged with nothing broadcast; (ii) the status changes only to
`SETTLED_WIN` and only when the broadcast call returned a txid; (iii) when
the signed PSBT returned by the signing agent carries no script-path
signature (empty `tapScriptSig`), the operation fails with
`noSignatureReturned`. -/
theorem c5 (env : Env) (c : ContractState) :
    (∀ e, (signAndBroadcast env c).err = some e →
      (signAndBroadcast env c).contract.id = c.id ∧
      (signAndBroadcast env c).contract.address = c.address ∧
      (signAndBroadcast env c).contract.status = c.status ∧
      (signAndBroadcast env c).contract.tx_hex = c.tx_hex ∧
      (signAndBroadcast env c).txid = none ∧
      (signAndBroadcast env c).contract.logs.head? =
        some ("簽名/廣播失敗: " ++ signFailMsg e)) ∧
    ((signAndBroadcast env c).contract.status ≠ c.status →
      (signAndBroadcast env c).err = none ∧
      (signAndBroadcast env c).contract.status = "SETTLED_WIN" ∧
      ∃ t, (signAndBroadcast env c).txid = some t) ∧
    (∀ tx i0 amt spk out0 outAddr uni sp si0,
      c.tx_hex ≠ "" → c.address ≠ "" →
      env.parseTx c.tx_hex = some tx → tx.ins[0]? = some i0 →
      2 ≤ i0.witness.length → c.amount = some amt →
      env.decodeTestnetAddr c.address = some spk →
      tx.outs[0]? = some out0 → env.encodeTestnetScript out0.script = some outAddr →
      env.unisat = some uni → (∀ p, uni.signPsbt p = .ok sp) →
      sp.inputs[0]? = some si0 → si0.tapScriptSig = [] →
      (signAndBroadcast env c).err = some SignErr.noSignatureReturned) := by
  refine ⟨?_, signAndBroadcast_status_changed env c, ?_⟩
  · intro e h
    obtain ⟨_, ht, hid, had, hst, hth, _, hlog⟩ := signAndBroadcast_err env c e h
    exact ⟨hid, had, hst, hth, ht, hlog⟩
  · intro tx i0 amt spk out0 outAddr uni sp si0 h1 h2 hp hi hw ham hd ho he hu hsig hin hempty
    have hw1 : (1:Nat) ≤ i0.witness.length := by omega
    obtain ⟨sc, hs2⟩ : ∃ sc, i0.witness[i0.witness.length - 2]? = some sc :=
      ⟨_, getElem?_eq_getD _ _ [] (by omega)⟩
    obtain ⟨cb, hs1⟩ : ∃ cb, i0.witness[i0.witness.length - 1]? = some cb :=
      ⟨_, getElem?_eq_getD _ _ [] (by omega)⟩
    have hcore : signAndBroadcastCore env c = .error .noSignatureReturned := by
      rw [signAndBroadcastCore]
      simp [hp, hi, ham, hd, hw, hw1, hs2, hs1, ho, he, hu, hsig, hin, hempty]
    rw [signAndBroadcast, if_neg h1, if_neg h2, hcore]

/-- Witness for C5 (iii): a signing agent that returns a signed PSBT with an
empty `tapScriptSig` makes the operation fail with `noSignatureReturned`. -/
theorem c5_witness :
    (signAndBroadcast demoEnvNoSig demoContractWithAmount).err =
      some SignErr.noSignatureReturned :=
  (c5 demoEnvNoSig demoContractWithAmount).2.2 demoTx demoTxIn 1000 [0, 32]
    { script := [5], value := 800 } "tb1out" demoUnisatEmptySig
    { inputs := [{ hasLeaf := true, tapScriptSig := [] }] }
    { hasLeaf := true, tapScriptSig := [] }
    (by decide) (by decide) rfl rfl (by decide) rfl rfl rfl rfl rfl (fun _ => rfl) rfl rfl

/-- C9: whenever the contract's destination address cannot be decoded under
the test network (in particular for a main-network address, which bitcoinjs
refuses to decode against the testnet parameters), building the
single-contract PSBT fails with the `Invalid address for Testnet` error: the
failure is logged, nothing is broadcast, the status never changes — the
address is never silently accepted or coerced. -/
theorem c9 (env : Env) (c : ContractState) (tx : Tx) (i0 : TxInput) (amt : Int)
    (h1 : c.tx_hex ≠ "") (h2 : c.address ≠ "")
    (hp : env.parseTx c.tx_hex = some tx) (hi : tx.ins[0]? = some i0)
    (ham : c.amount = some amt)
    (hd : env.decodeTestnetAddr c.address = none) :
    (signAndBroadcast env c).err = some (SignErr.invalidAddress c.address) ∧
    (signAndBroadcast env c).broadcastAttempted = false ∧
    (signAndBroadcast env c).txid = none ∧
    (signAndBroadcast env c).contract.status = c.status ∧
    (signAndBroadcast env c).contract.logs.head? =
      some ("簽名/廣播失敗: " ++ signFailMsg (SignErr.invalidAddress c.address)) := by
  have hcore : signAndBroadcastCore env c = .error (.invalidAddress c.address) := by
    rw [signAndBroadcastCore]
    simp only [hp, hi, ham, hd]
  have herr : (signAndBroadcast env c).err = some (SignErr.invalidAddress c.address) := by
    rw [signAndBroadcast, if_neg h1, if_neg h2, hcore]
  obtain ⟨hb, ht, _, _, hst, _, _, hlog⟩ := signAndBroadcast_err env c _ herr
  exact ⟨herr, by rw [hb]; rfl, ht, hst, hlog⟩

/-- Witness for C9: a main-network (`bc1...`) destination address with a
testnet decoder that rejects it blocks the signing operation. -/
theorem c9_witness :
    (signAndBroadcast demoEnvBadAddr demoContractMainnet).err =
      some (SignErr.invalidAddress demoContractMainnet.address) ∧
    (signAndBroadcast demoEnvBadAddr demoContractMainnet).broadcastAttempted = false ∧
    (signAndBroadcast demoEnvBadAddr demoContractMainnet).txid = none ∧
    (signAndBroadcast demoEnvBadAddr demoContractMainnet).contract.status =
      demoContractMainnet.status ∧
    (signAndBroadcast demoEnvBadAddr demoContractMainnet).contract.logs.head? =
      some ("簽名/廣播失敗: " ++
        signFailMsg (SignErr.invalidAddress demoContractMainnet.address)) :=
  c9 demoEnvBadAddr demoContractMainnet demoTx demoTxIn 1000
    (by decide) (by decide) rfl rfl rfl rfl

/-- C6: a delivered push event whose `contract_id` differs from the tracked
contract's id never mutates the tracked state (id, address, status, pending
hex; the event is only logged, as specified), and delivering the same
`MATCHED` event twice for the tracked contract is idempotent: the status is
`MATCHED` after the first delivery and still `MATCHED` after the second,
with the other tracked fields untouched. -/
theorem c6 (c : ContractState) (e : WsEvent) :
    (c.id ≠ some e.contract_id →
      (onMessage c e).id = c.id ∧ (onMessage c e).address = c.address ∧
      (onMessage c e).status = c.status ∧ (onMessage c e).tx_hex = c.tx_hex ∧
      (onMessage c e).amount = c.amount) ∧
    (truthyId c.id = true → c.id = some e.contract_id → e.type = "MATCHED" →
      (onMessage c e).status = "MATCHED" ∧
      (onMessage (onMessage c e) e).status = "MATCHED" ∧
      (onMessage (onMessage c e) e).id = c.id ∧
      (onMessage (onMessage c e) e).tx_hex = c.tx_hex ∧
      (onMessage (onMessage c e) e).address = c.address) := by
  constructor
  · intro hne
    simp [onMessage, pushLog, hne]
  · intro ht heq htype
    have happ : ∀ c2 : ContractState, c2.id = some e.contract_id →
        (onMessage c2 e).status = "MATCHED" ∧ (onMessage c2 e).id = c2.id ∧
        (onMessage c2 e).tx_hex = c2.tx_hex ∧ (onMessage c2 e).address = c2.address := by
      intro c2 hid
      have htr2 : truthyId c2.id = true := by
        rw [hid, ← heq]
        exact ht
      simp only [onMessage, pushLog]
      rw [if_pos ⟨htr2, hid⟩, if_pos htype]
      exact ⟨rfl, rfl, rfl, rfl⟩
    obtain ⟨h1s, h1id, h1tx, h1ad⟩ := happ c heq
    obtain ⟨h2s, h2id, h2tx, h2ad⟩ := happ (onMessage c e) (by rw [h1id, heq])
    exact ⟨h1s, h2s, by rw [h2id, h1id], by rw [h2tx, h1tx], by rw [h2ad, h1ad]⟩

/-- Witness for C6: a tracked contract with id 7 receiving the same
`MATCHED` event twice ends (and stays) in status `MATCHED`; an event for a
different id leaves the tracked fields unchanged. -/
theorem c6_witness :
    (onMessage demoTracked demoMatchedEvent).status = "MATCHED" ∧
    (onMessage (onMessage demoTracked demoMatchedEvent) demoMatchedEvent).status =
      "MATCHED" ∧
    (onMessage (onMessage demoTracked demoMatchedEvent) demoMatchedEvent).id =
      demoTracked.id := by
  obtain ⟨h1, h2, h3, -, -⟩ :=
    (c6 demoTracked demoMatchedEvent).2 (by decide) (by decide) (by decide)
  exact ⟨h1, h2, h3⟩

/-- C7: in the batch claim path, a broadcast is attempted only after every
input of the signed PSBT has been finalized (`finalizeAllInputsFrom` returned
success for the whole list); whenever the outcome is a `finalizationError`
nothing was broadcast; and a `finalizationError i` names the first
unfinalizable input: input `i` lacks its leaf metadata or one of the two
required signatures while all inputs before `i` are finalizable.  Partial
success is impossible: either all inputs finalize and the one extracted
transaction is pushed, or nothing is pushed. -/
theorem c7 (env : Env) (pk : String) (c : ContractState) :
    ((claimAll env pk c).2.broadcastAttempted = true →
      ∃ data tx pins uni signed,
        env.claimResp = .ok data ∧
        env.parseTx data.unsigned_tx_hex = some tx ∧
        buildBatchInputs tx.ins data.psbt_inputs [] = .ok pins ∧
        env.unisat = some uni ∧
        uni.signPsbt
          { inputs := pins
            outputs := tx.outs.map (fun o =>
              { dest := PsbtDest.byScript o.script, value := o.value }) } = .ok signed ∧
        finalizeAllInputsFrom 0 signed.inputs = .ok ()) ∧
    (∀ i, (claimAll env pk c).2.err = some (ClaimErr.finalizationError i) →
      (claimAll env pk c).2.broadcastAttempted = false ∧
      (claimAll env pk c).2.txid = none) ∧
    (∀ sins i, finalizeAllInputsFrom 0 sins = .error (ClaimErr.finalizationError i) →
      i < sins.length ∧ finalizable (sins.getD i defaultSignedIn) = false ∧
      ∀ j, j < i → finalizable (sins.getD j defaultSignedIn) = true) := by
  refine ⟨claimAll_broadcast_finalized env pk c, claimAll_finErr env pk c, ?_⟩
  intro sins i h
  obtain ⟨hki, hlen, hbad, hgood⟩ := finalizeFrom_err sins 0 i h
  simp only [Nat.sub_zero] at hlen hbad hgood
  exact ⟨hlen, hbad, hgood⟩

/-- Witness for C7: a batch of two claimable contracts where the wallet's
signed PSBT leaves input 1 without the user signature fails with
`finalizationError 1` and nothing is broadcast. -/
theorem c7_witness :
    (claimAll demoEnvClaim "pk" initialContract).2.err =
      some (ClaimErr.finalizationError 1) ∧
    (claimAll demoEnvClaim "pk" initialContract).2.broadcastAttempted = false ∧
    (claimAll demoEnvClaim "pk" initialContract).2.txid = none := by
  have h : (claimAll demoEnvClaim "pk" initialContract).2.err =
      some (ClaimErr.finalizationError 1) := by decide
  obtain ⟨h1, h2⟩ := (c7 demoEnvClaim "pk" initialContract).2.1 1 h
  exact ⟨h, h1, h2⟩

/-- C8 counterexample: the claim says any exception after a contract id has
been obtained triggers a cancel request and local clearing.  The catch block
guards the cleanup with the JavaScript truthiness of `currentContract.id`
(source line 625), so when the backend hands out contract id `0` and the
deposit send then throws, no cancel request is issued and id/address/status
are NOT cleared. -/
theorem c8_counterexample :
    (createAndDeposit demoFlowEnvZero true 1000 initialContract).cancelRequested = none ∧
    (createAndDeposit demoFlowEnvZero true 1000 initialContract).contract.id = some 0 ∧
    (createAndDeposit demoFlowEnvZero true 1000 initialContract).contract.status = "CREATED" ∧
    (createAndDeposit demoFlowEnvZero true 1000 initialContract).contract.address = "tb1dep" := by
  refine ⟨by decide, by decide, by decide, by decide⟩

/-- C8 (amended): if an exception occurs after a NONZERO contract id has been
obtained (the deposit send throws), the orchestrator issues a
`cancel_contract` request with that id and then clears the local contract id,
address and status to empty; a failure of the cancel request itself is only
logged and does not prevent the clearing.  (For contract id `0` — a falsy
JavaScript value — the cleanup branch is skipped entirely, see the
counterexample.) -/
theorem c8_amended (env : FlowEnv) (amount : Int) (c : ContractState)
    (data : CreateResp) (m : String)
    (hc : env.createResp = .ok data) (hs : data.status = "success")
    (hnz : data.contract_id ≠ 0)
    (hsend : env.sendBitcoin data.deposit_address amount = .error m) :
    (createAndDeposit env true amount c).cancelRequested = some data.contract_id ∧
    (createAndDeposit env true amount c).contract.id = none ∧
    (createAndDeposit env true amount c).contract.address = "" ∧
    (createAndDeposit env true amount c).contract.status = "" ∧
    (∀ cm, env.cancelContract data.contract_id = .error cm →
      ("清理合約失敗: " ++ cm) ∈ (createAndDeposit env true amount c).contract.logs) := by
  cases hcc : env.cancelContract data.contract_id with
  | ok u =>
    simp [createAndDeposit, cleanupOnFailure, pushLog, hc, hs, hsend, hcc, truthyId, hnz]
  | error cm0 =>
    simp [createAndDeposit, cleanupOnFailure, pushLog, hc, hs, hsend, hcc, truthyId, hnz]

/-- Witness for C8 (amended), spec §8 scenario B with id 42: cancel is
requested for id 42, the local state is cleared, and the failing cancel is
logged. -/
theorem c8_witness :
    (createAndDeposit demoFlowEnv42 true 1000 initialContract).cancelRequested = some 42 ∧
    (createAndDeposit demoFlowEnv42 true 1000 initialContract).contract.id = none ∧
    (createAndDeposit demoFlowEnv42 true 1000 initialContract).contract.address = "" ∧
    (createAndDeposit demoFlowEnv42 true 1000 initialContract).contract.status = "" ∧
    ("清理合約失敗: cancel also failed" ∈
      (createAndDeposit demoFlowEnv42 true 1000 initialContract).contract.logs) := by
  obtain ⟨h1, h2, h3, h4, h5⟩ :=
    c8_amended demoFlowEnv42 1000 initialContract
      { status := "success", contract_id := 42, deposit_address := "tb1dep" } "boom"
      rfl rfl (by decide) rfl
  exact ⟨h1, h2, h3, h4, h5 "cancel also failed" rfl⟩

/-- C10: both signing operations call the UniSat provider (`window.unisat`)
directly, so in any session where that provider is absent (e.g. only the OKX
wallet is installed and connected — neither operation ever consults the
connected provider handle), `signAndBroadcast` and `claimAll` never reach a
broadcast, leave the tracked contract's id/status/pending hex unchanged, and
(under the operations' entry preconditions) fail with an error that is
appended to the log. -/
theorem c10 (env : Env) (c : ContractState) (pk : String) (hu : env.unisat = none) :
    ((signAndBroadcast env c).broadcastAttempted = false ∧
     (signAndBroadcast env c).txid = none ∧
     (signAndBroadcast env c).contract.id = c.id ∧
     (signAndBroadcast env c).contract.status = c.status ∧
     (signAndBroadcast env c).contract.tx_hex = c.tx_hex) ∧
    (c.tx_hex ≠ "" → c.address ≠ "" →
      ∃ e, (signAndBroadcast env c).err = some e ∧
        (signAndBroadcast env c).contract.logs.head? =
          some ("簽名/廣播失敗: " ++ signFailMsg e)) ∧
    ((claimAll env pk c).2.broadcastAttempted = false ∧
     (claimAll env pk c).2.txid = none ∧
     (claimAll env pk c).1.id = c.id ∧
     (claimAll env pk c).1.status = c.status ∧
     (claimAll env pk c).1.tx_hex = c.tx_hex) ∧
    (pk ≠ "" → ∃ e2, (claimAll env pk c).2.err = some e2 ∧
      (claimAll env pk c).1.logs.head? = some ("批量領取失敗: " ++ claimFailMsg e2)) := by
  obtain ⟨ha1, ha2, ha3, ha4, ha5, ha6⟩ := signAndBroadcast_noWallet env c hu
  obtain ⟨hb1, hb2, hb3⟩ := claimAll_noWallet env pk c hu
  obtain ⟨hc1, hc2, hc3, hc4, hc5⟩ := claimAll_state env pk c
  exact ⟨⟨ha1, ha2, ha3, ha4, ha5⟩, ha6, ⟨hb1, hb2, hc1, hc3, hc4⟩, hb3⟩

/-- Witness for C10: with `window.unisat` absent (OKX-only session), neither
operation broadcasts and the tracked status is unchanged. -/
theorem c10_witness :
    (signAndBroadcast demoEnvNoUnisat demoContractWithAmount).broadcastAttempted = false ∧
    (claimAll demoEnvNoUnisat "pk" demoContractWithAmount).2.broadcastAttempted = false ∧
    (claimAll demoEnvNoUnisat "pk" demoContractWithAmount).1.status =
      demoContractWithAmount.status := by
  obtain ⟨⟨h1, -, -, -, -⟩, -, ⟨h2, -, -, h3, -⟩, -⟩ :=
    c10 demoEnvNoUnisat demoContractWithAmount "pk" rfl
  exact ⟨h1, h2, h3⟩

end DiffHedge
